import Mathlib

set_option maxHeartbeats 1000000

/- Verification development for the Webflow-Ultra recorder/replayer.

   Shallow embedding of:
   - the in-page recorder script (recorder/selectors.py, RECORDER_JS):
     textPreview, valuePreview, cssPath, xPath, elInfo, the input/change
     handlers;
   - the capture persistence hook (main.py, record_event_binding) and the
     capture-side credential patterns (main.py EMAIL_PAT / PASS_PAT);
   - the replay runner (replay/runner.py): EMAIL_PAT / PASS_PAT,
     ElementInfo / _el_from_event, _looks_like_email_field /
     _looks_like_password_field, _best_locator, the input / keydown event
     branches, _event_time_ms, the pacing precomputation and loop,
     maybe_autofill_credentials, and event loading.

   Machine strings are Lean String over codepoints (Python len/slice count
   codepoints; JS slice counts UTF-16 units — identical on the BMP strings
   used throughout).  Real-valued wall-clock quantities are embedded as
   rationals; the source's float fraction arithmetic can differ from exact
   rationals by one millisecond on some fractional-second strings, which is
   immaterial to every property stated below. -/

/-- The fixed redaction marker, `REDACTED = "••••••"` in main.py and
replay/runner.py (and the literal in RECORDER_JS). -/
def REDACTED : String := "••••••"

/-! ## Character / string helpers shared by the embeddings -/

/-- Python regex `\s` / JS `\s`, restricted to the ASCII whitespace class
(space, tab, newline, carriage return, vertical tab, form feed). -/
def isWsChar (c : Char) : Bool :=
  c == ' ' || c == '\t' || c == '\n' || c == '\r' || c == '\x0b' || c == '\x0c'

/-- Lower-cased character list of a string (Python `.lower()` / `re.I`,
ASCII range). -/
def lcChars (s : String) : List Char := s.data.map Char.toLower

/-- Lower-cased string (Python `.lower()` / JS `.toLowerCase()`, ASCII
range). -/
def lowerStr (s : String) : String := String.mk (s.data.map Char.toLower)

/-- Python `" ".join(parts)`. -/
def joinSpace : List String → String
  | [] => ""
  | [s] => s
  | s :: rest => s ++ " " ++ joinSpace rest

/-- Python `" ".join(filter(None, xs))` over optional attribute values:
`filter(None, ...)` drops both `None` and the empty string. -/
def joinTruthy (xs : List (Option String)) : String :=
  joinSpace ((xs.filterMap id).filter (fun s => !(s == "")))

/-- Number of characters (Python `len`). -/
def pyLen (s : String) : Nat := s.data.length

/-- Character slice from the start (Python `s[:n]` / JS `slice(0, n)`). -/
def strTake (s : String) (n : Nat) : String := String.mk (s.data.take n)

/-! ## The credential patterns

replay/runner.py:
  `EMAIL_PAT = re.compile(r"(e[-\s]*mail|user(name)?|login|account)", re.I)`
  `PASS_PAT  = re.compile(r"pass(word)?", re.I)`
main.py:
  `EMAIL_PAT = re.compile(r"e[-\s]*mail|user(name)?|login", re.I)`
  `PASS_PAT  = re.compile(r"pass(word)?", re.I)`

`re.search` of `user(name)?` succeeds exactly when "user" occurs, and the
other plain alternatives likewise reduce to substring tests; `e[-\s]*mail`
needs the custom scan below (an `e`, a run of hyphens/whitespace, then
"mail" — the separator run is unambiguous because `m` is not a separator,
so the greedy scan is exact). -/

/-- Substring occurrence test on character lists (the plain-literal case
of `re.search`). -/
def infixOfChars (pat : List Char) : List Char → Bool
  | [] => pat.isEmpty
  | c :: cs => List.isPrefixOf pat (c :: cs) || infixOfChars pat cs

/-- Separator class `[-\s]` of the e-mail pattern. -/
def isSepChar (c : Char) : Bool := c == '-' || isWsChar c

/-- After an `e`: skip `[-\s]*`, then require the literal "mail". -/
def mailAfterSep : List Char → Bool
  | [] => false
  | c :: cs =>
    if isSepChar c then mailAfterSep cs
    else List.isPrefixOf ['m', 'a', 'i', 'l'] (c :: cs)

/-- Scan for an occurrence of `e[-\s]*mail` (input already lower-cased). -/
def eMailScan : List Char → Bool
  | [] => false
  | c :: cs => ((c == 'e') && mailAfterSep cs) || eMailScan cs

/-- `bool(EMAIL_PAT.search(s))` for the replay-side pattern (runner.py). -/
def emailPatSearch (s : String) : Bool :=
  let l := lcChars s
  eMailScan l || infixOfChars "user".data l || infixOfChars "login".data l
    || infixOfChars "account".data l

/-- `bool(EMAIL_PAT.search(s))` for the capture-side pattern (main.py):
same alternatives except that "account" is absent. -/
def mainEmailPatSearch (s : String) : Bool :=
  let l := lcChars s
  eMailScan l || infixOfChars "user".data l || infixOfChars "login".data l

/-- `bool(PASS_PAT.search(s))` (identical pattern in both files). -/
def passPatSearch (s : String) : Bool :=
  infixOfChars "pass".data (lcChars s)

/-! ## ElementInfo (replay/runner.py dataclass, and the shape of the `el`
record the recorder persists) -/

/-- replay/runner.py `ElementInfo` — every field defaults to `None`. -/
structure ElementInfo where
  tag : Option String := none
  id : Option String := none
  classes : Option String := none
  name : Option String := none
  type : Option String := none
  role : Option String := none
  aria_label : Option String := none
  title : Option String := none
  text : Option String := none
  value_preview : Option String := none
  selectors_css : Option String := none
  selectors_xpath : Option String := none
deriving DecidableEq

/-- replay/runner.py `_looks_like_password_field`: declared type
"password" (case-insensitively) wins; otherwise `PASS_PAT` is searched in
the space-joined truthy attributes id, name, aria_label, title, text
(note: `type` is *not* part of this haystack). -/
def looksLikePasswordField (info : ElementInfo) : Bool :=
  if info.type.any (fun t => lowerStr t == "password") then true
  else
    passPatSearch (joinTruthy [info.id, info.name, info.aria_label, info.title, info.text])

/-- replay/runner.py `_looks_like_email_field`: haystack is id, name,
aria_label, title, text *and* type; declared type "email" wins, else
`EMAIL_PAT` is searched in the haystack. -/
def looksLikeEmailField (info : ElementInfo) : Bool :=
  let hay := joinTruthy [info.id, info.name, info.aria_label, info.title, info.text, info.type]
  if info.type.any (fun t => lowerStr t == "email") then true
  else emailPatSearch hay

/-- Credential classification outcomes (spec §4.3). -/
inductive FieldClass
  | secret
  | identity
  | none
deriving DecidableEq

/-- The classification the replay code actually implements: the `input`
branch of `replay` consults `_looks_like_password_field` first and
`_looks_like_email_field` second (runner.py lines 393–396). -/
def classifyReplay (info : ElementInfo) : FieldClass :=
  if looksLikePasswordField info then FieldClass.secret
  else if looksLikeEmailField info then FieldClass.identity
  else FieldClass.none

/-- Modelled from the spec: the decision rule of spec §4.3 / claim C4, in
the claim's priority order — (a) declared type "password" ⇒ secret;
(b) declared type "email" ⇒ identity; (c) identity pattern first, then
secret pattern, over the concatenated attribute text (the spec names id,
name, placeholder, ARIA label and declared type; the recorded descriptor
has no placeholder).  This definition exists only to be compared with
`classifyReplay`, the rule the code implements. -/
def specClassify (info : ElementInfo) : FieldClass :=
  let hay := joinTruthy [info.id, info.name, info.aria_label, info.type]
  if info.type.any (fun t => lowerStr t == "password") then FieldClass.secret
  else if info.type.any (fun t => lowerStr t == "email") then FieldClass.identity
  else if emailPatSearch hay then FieldClass.identity
  else if passPatSearch hay then FieldClass.secret
  else FieldClass.none

/-! ## Capture side: RECORDER_JS handlers and the Python persistence hook -/

/-- The live DOM state of the event target, as read by RECORDER_JS.
`typeProp` is the `el.type` IDL property (normalized to a lower-case known
value by the DOM), `typeAttr` is `el.getAttribute("type")` (verbatim,
`none` when absent); `value` is `none` on elements without a value
property (`el.value ?? null`). -/
structure RawEl where
  tagName : String := ""
  typeProp : String := ""
  typeAttr : Option String := none
  idAttr : String := ""
  className : String := ""
  nameAttr : Option String := none
  roleAttr : Option String := none
  ariaLabelAttr : Option String := none
  titleAttr : Option String := none
  innerText : String := ""
  value : Option String := none
deriving DecidableEq

/-- Collapse whitespace runs to single spaces
(JS `.replace(/\s+/g, " ")`); `prev` records whether the previous emitted
character came from a whitespace run. -/
def collapseWsAux : Bool → List Char → List Char
  | _, [] => []
  | prev, c :: cs =>
    if isWsChar c then
      if prev then collapseWsAux true cs else ' ' :: collapseWsAux true cs
    else c :: collapseWsAux false cs

/-- JS `.trim()`: strip leading and trailing whitespace. -/
def trimWs (l : List Char) : List Char :=
  ((l.dropWhile isWsChar).reverse.dropWhile isWsChar).reverse

/-- RECORDER_JS `textPreview`: trim, collapse whitespace, truncate to 60
characters (57 + "..."). -/
def textPreview (el : RawEl) : String :=
  let t := String.mk (collapseWsAux false (trimWs el.innerText.data))
  if pyLen t > 60 then strTake t 57 ++ "..." else t

/-- The 40-character truncation used for input values and value previews:
`v.length > 40 ? v.slice(0, 37) + "..." : v`. -/
def truncate40 (v : String) : String :=
  if pyLen v > 40 then strTake v 37 ++ "..." else v

/-- RECORDER_JS `valuePreview`: password inputs yield the marker; other
inputs and textareas yield their (truncated) value; anything else null. -/
def valuePreview (el : RawEl) : Option String :=
  if el.tagName == "INPUT" && el.typeProp == "password" then some REDACTED
  else if el.tagName == "INPUT" || el.tagName == "TEXTAREA" then
    some (truncate40 (el.value.getD ""))
  else Option.none

/-- RECORDER_JS `elInfo`, producing the `el` record embedded in events.
The two synthesized selector strings are passed in (they are produced by
`cssPath` / `xPath`, modelled separately below over ancestor chains, and
no property in this file depends on their text). -/
def elInfo (el : RawEl) (css xp : Option String) : ElementInfo :=
  { tag := some (lowerStr el.tagName)
    id := if el.idAttr == "" then none else some el.idAttr
    classes := if el.className == "" then none else some el.className
    name := el.nameAttr
    type := el.typeAttr
    role := el.roleAttr.bind (fun r => if r == "" then none else some r)
    aria_label := el.ariaLabelAttr.bind (fun r => if r == "" then none else some r)
    title := el.titleAttr
    text := some (textPreview el)
    value_preview := valuePreview el
    selectors_css := css
    selectors_xpath := xp }

/-- A captured `input`/`change` event as handed to (and persisted by) the
Python bridge.  Both handlers always attach an `el` record. -/
structure CapEvent where
  etype : String
  el : ElementInfo
  input_value : Option String := none
  value : Option String := none
deriving DecidableEq

/-- RECORDER_JS `_input` handler: password inputs send the marker,
otherwise the element's value (`el.value ?? null`), truncated to 40. -/
def jsInputEvent (el : RawEl) (css xp : Option String) : CapEvent :=
  let val : Option String :=
    if el.tagName == "INPUT" && el.typeProp == "password" then some REDACTED else el.value
  { etype := "input"
    el := elInfo el css xp
    input_value := val.map truncate40 }

/-- RECORDER_JS `_change` handler: same value computation, but the payload
key is `value` (there is no `input_value` key on change events). -/
def jsChangeEvent (el : RawEl) (css xp : Option String) : CapEvent :=
  let val : Option String :=
    if el.tagName == "INPUT" && el.typeProp == "password" then some REDACTED else el.value
  { etype := "change"
    el := elInfo el css xp
    value := val.map truncate40 }

/-- The redaction condition of main.py `record_event_binding`: the
recorded `el.type` equals the literal "password", or the event's
`input_value` is truthy and differs from the marker. -/
def redactCond (ev : CapEvent) : Bool :=
  (ev.el.type == some "password")
    || (match ev.input_value with
        | some s => (!(s == "")) && (!(s == REDACTED))
        | Option.none => false)

/-- main.py `record_event_binding` (lines 88–103): for `input`/`change`
events satisfying `redactCond`, the keys `input_value` and `value` and
the descriptor's `value_preview` are all set to the marker. -/
def pyRedact (ev : CapEvent) : CapEvent :=
  if ev.etype == "input" || ev.etype == "change" then
    if redactCond ev then
      { ev with
          input_value := some REDACTED
          value := some REDACTED
          el := { ev.el with value_preview := some REDACTED } }
    else ev
  else ev

/-! ## Replay side: redacted-input substitution (runner.py input branch) -/

/-- Outcome of the `input` branch of `replay` for one event. -/
inductive InputAction
  | fillValue (v : String)
  | skipStep
  | fillRecorded (v : String)
deriving DecidableEq

/-- replay/runner.py lines 386–419: if the recorded value is the marker,
choose `PASSWORD` when the descriptor looks like a password field, else
`USERNAME` when it looks like an email field; fill only when the chosen
value is truthy, otherwise skip; a non-marker recorded value is replayed
as `loc.fill(recorded_val or "")`. -/
def replayInputStep (info : ElementInfo) (recordedVal : Option String)
    (username password : String) : InputAction :=
  if recordedVal == some REDACTED then
    let valueToUse : Option String :=
      if looksLikePasswordField info then some password
      else if looksLikeEmailField info then some username
      else Option.none
    match valueToUse with
    | some v => if v == "" then InputAction.skipStep else InputAction.fillValue v
    | Option.none => InputAction.skipStep
  else InputAction.fillRecorded (recordedVal.getD "")

/-! ## Locator resolution (runner.py `_best_locator`) -/

/-- The candidate strategies, in the order `_best_locator` builds them. -/
inductive Cand
  | cssSel (s : String)
  | idSel (s : String)
  | roleName (role nm : String)
  | roleButtonText (t : String)
  | textContains (t : String)
  | xpathSel (s : String)
  | nameAttrSel (s : String)
deriving DecidableEq

/-- Python truthiness on an optional string (`None` and `""` are falsy). -/
def optTruthy (o : Option String) : Option String :=
  o.bind (fun s => if s == "" then none else some s)

/-- Python `a or b or ... or ""` over optional strings. -/
def orDefault : List (Option String) → String
  | [] => ""
  | x :: rest =>
    match optTruthy x with
    | some s => s
    | Option.none => orDefault rest

/-- The candidate list of `_best_locator` (runner.py lines 87–109):
explicit CSS → `#id` → role+accessible-name → (for buttons/links) text
role query and text query → XPath → `[name=...]`. -/
def candidates (info : ElementInfo) : List Cand :=
  (match optTruthy info.selectors_css with
   | some s => [Cand.cssSel s]
   | Option.none => []) ++
  (match optTruthy info.id with
   | some s => [Cand.idSel s]
   | Option.none => []) ++
  (match optTruthy info.role with
   | some r =>
     let nameSource := orDefault [info.aria_label, info.title, info.text]
     if nameSource == "" then [] else [Cand.roleName r nameSource]
   | Option.none => []) ++
  (if info.tag == some "button" || info.tag == some "a" then
    match optTruthy info.text with
    | some t => [Cand.roleButtonText t, Cand.textContains t]
    | Option.none => []
   else []) ++
  (match optTruthy info.selectors_xpath with
   | some s => [Cand.xpathSel s]
   | Option.none => []) ++
  (match optTruthy info.name with
   | some s => [Cand.nameAttrSel s]
   | Option.none => [])

/-- The possible results of `_best_locator`.  `notFound` is the outcome
claim C3 / spec §4.4 expects on resolution failure; it is included so that
the claim can be stated, and the code never produces it: on failure the
source returns `cands[0] if cands else page.locator("html")`. -/
inductive LocOutcome
  | found (c : Cand)
  | fallbackFirst (c : Cand)
  | fallbackHtml
  | notFound
deriving DecidableEq

/-- runner.py `_best_locator` (lines 87–124).  `vis c` abstracts "the
candidate's first match became visible within its 3-second bounded wait"
(the subsequent attached-wait is inside its own try/except and cannot
change the returned value). -/
def bestLocator (info : ElementInfo) (vis : Cand → Bool) : LocOutcome :=
  match (candidates info).find? vis with
  | some c => LocOutcome.found c
  | Option.none =>
    match candidates info with
    | c :: _ => LocOutcome.fallbackFirst c
    | [] => LocOutcome.fallbackHtml

/-! ## Pacing (runner.py `_event_time_ms`, rel_times, and the sleep loop) -/

/-- runner.py constant `TIMESCALE = 1.0`. -/
def TIMESCALE : ℚ := 1

/-- runner.py constant `MAX_GAP_MS = 1500`. -/
def MAX_GAP_MS : ℚ := 1500

/-- Python `s.split(sep)` for a single-character separator, on character
lists (`"".split(sep) = [""]`, separators are not collapsed). -/
def splitOnCharAux (sep : Char) : List Char → List Char → List (List Char)
  | [], acc => [acc.reverse]
  | c :: cs, acc =>
    if c == sep then acc.reverse :: splitOnCharAux sep cs []
    else splitOnCharAux sep cs (c :: acc)

/-- Python `s.split(sep)`, single-character separator. -/
def splitOnChar (sep : Char) (l : List Char) : List (List Char) :=
  splitOnCharAux sep l []

/-- Digits-only numeral value (`none` on a non-digit or empty input). -/
def digitsToNatAux : List Char → Nat → Option Nat
  | [], acc => some acc
  | c :: cs, acc =>
    if c.isDigit then digitsToNatAux cs (acc * 10 + (c.toNat - 48)) else none

/-- Python `int(s)` on the digit strings appearing in timestamps (an
optional leading minus sign then decimal digits; Python additionally
accepts surrounding whitespace, a plus sign and underscores, none of which
occur in ISO timestamps). -/
def intOfChars? : List Char → Option Int
  | '-' :: rest =>
    (match rest with
     | [] => Option.none
     | _ => (digitsToNatAux rest 0).map (fun n => -(n : Int)))
  | l =>
    match l with
    | [] => Option.none
    | _ => (digitsToNatAux l 0).map Int.ofNat

/-- Python `t.rstrip("Z")`: drop every trailing `Z`. -/
def rstripZ (l : List Char) : List Char :=
  (l.reverse.dropWhile (fun c => c == 'Z')).reverse

/-- `int(float("0." + frac) * 1000)` computed exactly over ℚ:
`⌊digits / 10^len * 1000⌋` (the source's float computation can differ by
one millisecond on some fractions). -/
def fracMs (frac : List Char) : Option Nat :=
  if frac.all Char.isDigit then
    (digitsToNatAux frac 0).map (fun n => n * 1000 / 10 ^ frac.length)
  else none

/-- runner.py `_event_time_ms` (lines 257–279): parse
`yyyy-mm-ddTHH:MM:SS[.frac]` (with trailing `Z`s stripped) and return
`((hh*3600 + mm*60 + sec) * 1000 + ms)` — an exact integer of
milliseconds (the source stores it in a float).  The date must parse but
its value is discarded; any parse failure yields `none` (the source
catches the exception).  A missing or empty `t` field also yields
`none`. -/
def eventTimeMs (t? : Option String) : Option ℤ :=
  match t? with
  | Option.none => Option.none
  | some t =>
    if t == "" then Option.none
    else
      match splitOnChar 'T' (rstripZ t.data) with
      | [date, timepart] =>
        match splitOnChar '-' date with
        | [ys, ms', ds] =>
          match intOfChars? ys, intOfChars? ms', intOfChars? ds with
          | some _, some _, some _ =>
            match splitOnChar ':' timepart with
            | [hs, mins, ss] =>
              match intOfChars? hs, intOfChars? mins with
              | some hh, some mm =>
                (match splitOnChar '.' ss with
                 | [sOnly] =>
                   (intOfChars? sOnly).map
                     (fun sec => ((hh * 3600 + mm * 60 + sec) * 1000 : ℤ))
                 | [sPart, frac] =>
                   match intOfChars? sPart, fracMs frac with
                   | some sec, some msv =>
                     some (((hh * 3600 + mm * 60 + sec) * 1000 + (msv : ℤ) : ℤ))
                   | _, _ => Option.none
                 | _ => Option.none)
              | _, _ => Option.none
            | _ => Option.none
          | _, _, _ => Option.none
        | _ => Option.none
      | _ => Option.none

/-- The rel_times precomputation (runner.py lines 301–310) over already
parsed per-event times: `base = (time of the first event) or 0.0`, and
each present time maps to `max(0.0, (t - base) / TIMESCALE)`. -/
def relTimesOfParsed (ps : List (Option ℚ)) : List (Option ℚ) :=
  match ps with
  | [] => []
  | p0 :: _ =>
    let base := p0.getD 0
    ps.map (Option.map (fun x => max 0 ((x - base) / TIMESCALE)))

/-- The inclusion of the parsed integral milliseconds into the rational
arithmetic of the pacing computation. -/
def qOfZ (z : ℤ) : ℚ := (z : ℚ)

/-- rel_times over the events' raw `t` fields (the parsed integral
milliseconds enter the float arithmetic of the pacing computation, here
ℚ). -/
def relTimes (ts : List (Option String)) : List (Option ℚ) :=
  relTimesOfParsed (ts.map (fun t => (eventTimeMs t).map qOfZ))

/-- The pacing sleeps of the replay loop (runner.py lines 332–339),
idealized to instantaneous actions so that the wall clock elapsed equals
the accumulated sleeps: a missing rel time sleeps 0; otherwise, with
`target = rel / 1000`, the loop sleeps
`min(target - elapsed, MAX_GAP_MS / 1000)` when `target - elapsed > 0`
and nothing otherwise. -/
def sleepsAux : List (Option ℚ) → ℚ → List ℚ
  | [], _ => []
  | Option.none :: rest, elapsed => 0 :: sleepsAux rest elapsed
  | some r :: rest, elapsed =>
    let target := r / 1000
    if target - elapsed > 0 then
      let gap := min (target - elapsed) (MAX_GAP_MS / 1000)
      gap :: sleepsAux rest (elapsed + gap)
    else 0 :: sleepsAux rest elapsed

/-- Pacing sleeps for a whole event list (by its `t` fields). -/
def sleeps (ts : List (Option String)) : List ℚ :=
  sleepsAux (relTimes ts) 0

/-! ## Selector synthesis (RECORDER_JS cssPath / xPath) -/

/-- One level of the ancestor chain of a DOM node, self first.  `tag` is
the lower-cased tag/node name; `sameTagChildren` is the number of the
parent's child elements sharing this tag and `nthOfType` the node's
1-based index among them (cssPath's disambiguator); `prevSameName` counts
preceding element siblings with the same node name (xPath's index);
`hasParent` is whether `parentElement` is non-null. -/
structure Level where
  tag : String := "div"
  idAttr : String := ""
  classes : List String := []
  sameTagChildren : Nat := 1
  nthOfType : Nat := 1
  prevSameName : Nat := 0
  hasParent : Bool := true
deriving DecidableEq

/-- A pragmatic `CSS.escape`: identifier characters and non-ASCII pass
through, anything else gets a backslash (the full algorithm has more
cases; no property below depends on the escaped text). -/
def cssEscapeChar (c : Char) : String :=
  if c.isAlphanum || c == '-' || c == '_' || 128 ≤ c.toNat then String.mk [c]
  else String.mk ['\\', c]

/-- Concatenation of a list of strings. -/
def concatStrings : List String → String
  | [] => ""
  | s :: rest => s ++ concatStrings rest

/-- `CSS.escape` over a string. -/
def cssEscape (s : String) : String := concatStrings (s.data.map cssEscapeChar)

/-- Dot-joined class list (`"." + classes.map(CSS.escape).join(".")`). -/
def joinDots : List String → String
  | [] => ""
  | [s] => s
  | s :: rest => s ++ "." ++ joinDots rest

/-- One structural-path segment: tag, classes, and an
`:nth-of-type(i)` disambiguator when the tag is shared by siblings. -/
def cssSegment (l : Level) : String :=
  let base :=
    l.tag ++ (if l.classes.isEmpty then "" else "." ++ joinDots (l.classes.map cssEscape))
  if l.sameTagChildren > 1 then
    base ++ ":nth-of-type(" ++ toString l.nthOfType ++ ")"
  else base

/-- The cssPath ancestor walk (RECORDER_JS lines 27–42): stop at `html`;
discard the segment and stop when the parent is missing; prepend the
segment (JS `unshift`) and stop once more than 6 segments accumulated. -/
def cssPartsAux : List Level → List String → List String
  | [], acc => acc
  | l :: rest, acc =>
    if l.tag == "html" then acc
    else if !l.hasParent then acc
    else if (cssSegment l :: acc).length > 6 then cssSegment l :: acc
    else cssPartsAux rest (cssSegment l :: acc)

/-- RECORDER_JS `cssPath` over the node's ancestor chain (self first): a
non-empty id yields the single segment `#id`; otherwise the ancestor walk,
`null` (none) when it produced no segments. -/
def cssPath (ls : List Level) : Option (List String) :=
  match ls with
  | [] => Option.none
  | l :: _ =>
    if !(l.idAttr == "") then some ["#" ++ cssEscape l.idAttr]
    else
      let ps := cssPartsAux ls []
      if ps.isEmpty then Option.none else some ps

/-- One positional-path segment: `tag[i]` with the 1-based
previous-same-name-sibling index. -/
def xSegment (l : Level) : String :=
  l.tag ++ "[" ++ toString (l.prevSameName + 1) ++ "]"

/-- The xPath ancestor walk (RECORDER_JS lines 56–63): prepend a segment
for every element in the chain (including `html`), stopping once more
than 8 segments accumulated. -/
def xPartsAux : List Level → List String → List String
  | [], acc => acc
  | l :: rest, acc =>
    if (xSegment l :: acc).length > 8 then xSegment l :: acc
    else xPartsAux rest (xSegment l :: acc)

/-- RECORDER_JS `xPath` over the node's element ancestor chain. -/
def xPath (ls : List Level) : Option (List String) :=
  match ls with
  | [] => Option.none
  | l :: rest => some (xPartsAux (l :: rest) [])

/-! ## keydown allow-list (runner.py keydown branch) -/

/-- The tuple in `if key in ("Enter", "Tab", "Escape", "ArrowDown",
"ArrowUp")` (runner.py line 423). -/
def keydownAllowList : List String := ["Enter", "Tab", "Escape", "ArrowDown", "ArrowUp"]

/-- Whether a keydown event's key is replayed as a key press; a missing
`key` field is never in the tuple. -/
def keydownReplayed (key : Option String) : Bool :=
  match key with
  | some k => decide (k ∈ keydownAllowList)
  | Option.none => false

/-- Modelled from the spec: the allow-list claim C7 describes — "Enter,
Tab, Escape, and the arrow keys".  Exists only to be compared with
`keydownAllowList`. -/
def specKeyAllowList : List String :=
  ["Enter", "Tab", "Escape", "ArrowUp", "ArrowDown", "ArrowLeft", "ArrowRight"]

/-! ## Event loading (runner.py `replay`, lines 281–290) -/

/-- Python truthiness of `line.strip()`: a line is blank when every
character is whitespace. -/
def blankLine (s : String) : Bool := s.data.all isWsChar

/-- Event loading keeps exactly the non-blank lines (each is then parsed;
for the empty-session property the parse is irrelevant because no line
survives the filter). -/
def loadEvents (lines : List String) : List String :=
  lines.filter (fun l => !(blankLine l))

/-- The externally visible phases of `replay`'s top level, as far as the
empty-session property needs them: either the early return that only
prints the notice, or a run that launches the browser and processes the
loaded events. -/
inductive ReplayEffect
  | printNotice (msg : String)
  | launchBrowser
  | runSteps (n : Nat)
deriving DecidableEq

/-- runner.py lines 281–290 and onward: when no non-blank line exists the
function prints `"No events found in JSONL."` and returns before
`async_playwright()` is entered; otherwise the browser is launched and
every loaded event is processed. -/
def replayTop (lines : List String) : List ReplayEffect :=
  let events := loadEvents lines
  if events.isEmpty then [ReplayEffect.printNotice "No events found in JSONL."]
  else [ReplayEffect.launchBrowser, ReplayEffect.runSteps events.length]

/-! ## Credential autofill guard (runner.py `maybe_autofill_credentials`) -/

/-- Page interactions `maybe_autofill_credentials` can perform. -/
inductive AutofillEffect
  | waitMs (n : Nat)
  | fillFromSelectors
  | heuristicScan
deriving DecidableEq

/-- runner.py lines 245–255: `if not (USERNAME and PASSWORD): return` —
with either credential empty the function returns before any page
interaction; otherwise it waits, tries the explicit selectors, and falls
back to the heuristic scan unless the selectors filled both fields. -/
def maybeAutofillCredentials (username password : String)
    (selectorsFilledBoth : Bool) : List AutofillEffect :=
  if username == "" || password == "" then []
  else
    [AutofillEffect.waitMs 200, AutofillEffect.fillFromSelectors] ++
      (if selectorsFilledBoth then [] else [AutofillEffect.heuristicScan])

/-! ## Helper lemmas -/

/-- A truncated non-empty value is non-empty (the truncation either keeps
the string or appends "..."). -/
theorem truncate40_ne_empty {v : String} (hv : v ≠ "") : truncate40 v ≠ "" := by
  unfold truncate40
  split
  · intro h
    have hd := congrArg String.data h
    rw [String.data_append] at hd
    simp at hd
  · exact hv

/-- Entries produced by `sleepsAux` are nonnegative. -/
theorem sleepsAux_nonneg : ∀ (rts : List (Option ℚ)) (e : ℚ),
    ∀ s ∈ sleepsAux rts e, 0 ≤ s := by
  intro rts
  induction rts with
  | nil => intro e s hs; simp [sleepsAux] at hs
  | cons hd tl ih =>
    intro e s hs
    cases hd with
    | none =>
      rw [sleepsAux] at hs
      rcases List.mem_cons.mp hs with h | h
      · simp [h]
      · exact ih e s h
    | some r =>
      rw [sleepsAux] at hs
      dsimp only at hs
      split at hs
      · rcases List.mem_cons.mp hs with h | h
        · subst h
          refine le_min (le_of_lt (by assumption)) ?_
          rw [MAX_GAP_MS]
          norm_num
        · exact ih _ s h
      · rcases List.mem_cons.mp hs with h | h
        · simp [h]
        · exact ih e s h

/-- Running sums of a nonnegative list are nondecreasing. -/
theorem scanl_add_chain (l : List ℚ) :
    ∀ a : ℚ, (∀ x ∈ l, 0 ≤ x) → List.Chain' (· ≤ ·) (List.scanl (· + ·) a l) := by
  induction l with
  | nil => intro a _; simp [List.scanl]
  | cons x xs ih =>
    intro a h
    rw [List.scanl]
    have hx : 0 ≤ x := h x (List.mem_cons_self x xs)
    have hrest : ∀ y ∈ xs, 0 ≤ y := fun y hy => h y (List.mem_cons_of_mem x hy)
    have htail := ih (a + x) hrest
    refine List.chain'_cons'.mpr ⟨?_, htail⟩
    intro b hb
    cases xs with
    | nil =>
      simp [List.scanl] at hb
      subst hb
      linarith
    | cons z zs =>
      simp [List.scanl] at hb
      subst hb
      linarith

/-! ## C4 — credential field classifier -/

/-- C4 counterexample: the claim's priority order says a declared type
"email" yields identity before any pattern is tried, and that the
identity pattern is tried before the secret pattern; the code consults
`_looks_like_password_field` first, so a field with declared type "email"
and id "passcode" classifies `secret`, not `identity`.  Moreover capture
and replay do not share one implementation: main.py's identity pattern
lacks the "account" alternative that runner.py's has. -/
theorem c4_counterexample :
    classifyReplay { type := some "email", id := some "passcode" } = FieldClass.secret ∧
    specClassify { type := some "email", id := some "passcode" } = FieldClass.identity ∧
    emailPatSearch "account" = true ∧ mainEmailPatSearch "account" = false :=
  ⟨by decide, by decide, by decide, by decide⟩

/-- C4 (amended): the replay classifier gives the secret rule overall
priority — declared type "password" (case-insensitively), or the pass*
pattern over id/name/aria-label/title/text, classifies `secret` even when
the identity rule also applies; `identity` arises only when the secret
rule fails and the email rule (declared type "email", else the
email/user/login/account pattern over id/name/aria-label/title/text/type)
holds; and the capture side uses a separately defined identity pattern
without "account" (and never invokes this classifier for redaction). -/
theorem c4_classifier_amended :
    (∀ info : ElementInfo, info.type.any (fun t => lowerStr t == "password") = true →
        classifyReplay info = FieldClass.secret) ∧
    (∀ info : ElementInfo, looksLikePasswordField info = true →
        classifyReplay info = FieldClass.secret) ∧
    (∀ info : ElementInfo, classifyReplay info = FieldClass.identity →
        looksLikePasswordField info = false ∧ looksLikeEmailField info = true) ∧
    (emailPatSearch "account" = true ∧ mainEmailPatSearch "account" = false) := by
  refine ⟨?_, ?_, ?_, by decide, by decide⟩
  · intro info h
    have hp : looksLikePasswordField info = true := by
      rw [looksLikePasswordField, h]
      simp
    rw [classifyReplay, hp]
    simp
  · intro info h
    rw [classifyReplay, h]
    simp
  · intro info h
    rw [classifyReplay] at h
    by_cases hp : looksLikePasswordField info = true
    · rw [hp] at h
      simp at h
    · rw [Bool.not_eq_true] at hp
      rw [hp] at h
      simp only [Bool.false_eq_true, if_false] at h
      by_cases he : looksLikeEmailField info = true
      · exact ⟨hp, he⟩
      · rw [Bool.not_eq_true] at he
        rw [he] at h
        simp at h

/-- C4 witness: the amended theorem at concrete descriptors — a field
with declared type "PassWord" classifies secret, and a field whose only
attribute is name "user" is an identity (email-like, not password-like)
field. -/
theorem c4_witness :
    classifyReplay ({ type := some "PassWord" } : ElementInfo) = FieldClass.secret ∧
    (looksLikePasswordField ({ name := some "user" } : ElementInfo) = false ∧
     looksLikeEmailField ({ name := some "user" } : ElementInfo) = true) :=
  ⟨c4_classifier_amended.1 _ (by decide),
   c4_classifier_amended.2.2.1 _ (by decide)⟩

/-! ## C7 — keydown allow-list -/

/-- C7 counterexample: "ArrowLeft" is an arrow key (it is in the
allow-list the claim describes) but the code's tuple contains only
ArrowDown and ArrowUp, so an ArrowLeft keydown is not replayed. -/
theorem c7_counterexample :
    "ArrowLeft" ∈ specKeyAllowList ∧ keydownReplayed (some "ArrowLeft") = false :=
  ⟨by decide, by decide⟩

/-- C7 (amended): a keydown is replayed iff its key is in the fixed tuple
Enter, Tab, Escape, ArrowDown, ArrowUp — ArrowLeft and ArrowRight are
*not* replayed; in particular no single-character (printable) key and no
missing key is ever replayed. -/
theorem c7_keydown_amended :
    (∀ k : String, pyLen k = 1 → keydownReplayed (some k) = false) ∧
    keydownReplayed (some "a") = false ∧
    keydownReplayed (some "ArrowLeft") = false ∧
    keydownReplayed (some "ArrowRight") = false ∧
    (∀ k : String, keydownReplayed (some k) = true ↔ k ∈ keydownAllowList) ∧
    keydownReplayed Option.none = false := by
  refine ⟨?_, by decide, by decide, by decide, ?_, by decide⟩
  · intro k hk
    rw [keydownReplayed]
    rw [decide_eq_false_iff_not]
    intro hmem
    rw [keydownAllowList] at hmem
    simp only [List.mem_cons, List.not_mem_nil, or_false] at hmem
    rcases hmem with h | h | h | h | h
    all_goals subst h
    all_goals exact absurd hk (by decide)
  · intro k
    rw [keydownReplayed]
    exact decide_eq_true_iff

/-- C7 witness: the amended theorem applied to the printable key "x". -/
theorem c7_witness : keydownReplayed (some "x") = false :=
  c7_keydown_amended.1 "x" (by decide)

/-! ## C9 — empty session file -/

/-- C9: replaying a session whose lines are all blank loads no events,
prints the notice, and performs nothing else — in particular the browser
is never launched. -/
theorem c9_empty_session :
    ∀ lines : List String, (∀ l ∈ lines, blankLine l = true) →
      loadEvents lines = [] ∧
      replayTop lines = [ReplayEffect.printNotice "No events found in JSONL."] ∧
      ReplayEffect.launchBrowser ∉ replayTop lines := by
  intro lines h
  have hl : loadEvents lines = [] := by
    rw [loadEvents]
    rw [List.filter_eq_nil_iff]
    intro a ha
    rw [h a ha]
    simp
  refine ⟨hl, ?_, ?_⟩
  · rw [replayTop, hl]
    simp
  · rw [replayTop, hl]
    simp

/-- C9 witness: a session file of one empty and one whitespace line. -/
theorem c9_witness :
    replayTop ["", " "] = [ReplayEffect.printNotice "No events found in JSONL."] :=
  (c9_empty_session ["", " "] (by decide)).2.1

/-! ## C10 — credential autofill guard -/

/-- C10: `maybe_autofill_credentials` performs no page interaction when
either configured credential is the empty string, and does interact (at
least querying the explicit selectors) when both are non-empty. -/
theorem c10_autofill_guard :
    (∀ (u p : String) (b : Bool), u = "" ∨ p = "" →
        maybeAutofillCredentials u p b = []) ∧
    (∀ (u p : String) (b : Bool), u ≠ "" → p ≠ "" →
        AutofillEffect.fillFromSelectors ∈ maybeAutofillCredentials u p b) := by
  constructor
  · intro u p b h
    rw [maybeAutofillCredentials]
    rcases h with h | h
    · rw [beq_iff_eq.mpr h]
      simp
    · rw [beq_iff_eq.mpr h]
      simp
  · intro u p b hu hp
    rw [maybeAutofillCredentials]
    rw [beq_eq_false_iff_ne.mpr hu, beq_eq_false_iff_ne.mpr hp]
    simp

/-- C10 witness: with an empty identity value nothing happens; with both
values present the selector query is attempted. -/
theorem c10_witness :
    maybeAutofillCredentials "" "s3cr3t" true = [] ∧
    AutofillEffect.fillFromSelectors ∈ maybeAutofillCredentials "alice" "s3cr3t" false :=
  ⟨c10_autofill_guard.1 "" "s3cr3t" true (Or.inl rfl),
   c10_autofill_guard.2 "alice" "s3cr3t" false (by decide) (by decide)⟩

/-! ## C2 — redacted input substitution on replay -/

/-- C2: when the recorded value of an `input` event equals the marker and
both stored credentials are non-empty, the step fills the stored secret
value when the descriptor classifies password-like, else the stored
identity value when it classifies email-like, and skips otherwise; as
long as neither stored credential is the marker itself, the literal
marker is never filled. -/
theorem c2_redacted_input_replay :
    ∀ (info : ElementInfo) (u p : String), u ≠ "" → p ≠ "" →
      u ≠ REDACTED → p ≠ REDACTED →
      (replayInputStep info (some REDACTED) u p =
        (if looksLikePasswordField info then InputAction.fillValue p
         else if looksLikeEmailField info then InputAction.fillValue u
         else InputAction.skipStep)) ∧
      (∀ v, replayInputStep info (some REDACTED) u p = InputAction.fillValue v →
        v ≠ REDACTED) := by
  intro info u p hu hp huR hpR
  have hmain : replayInputStep info (some REDACTED) u p =
      (if looksLikePasswordField info then InputAction.fillValue p
       else if looksLikeEmailField info then InputAction.fillValue u
       else InputAction.skipStep) := by
    rw [replayInputStep]
    simp only [beq_self_eq_true, if_true]
    by_cases hpw : looksLikePasswordField info = true
    · rw [hpw]
      simp [beq_eq_false_iff_ne.mpr hp]
    · rw [Bool.not_eq_true] at hpw
      rw [hpw]
      by_cases hem : looksLikeEmailField info = true
      · rw [hem]
        simp [beq_eq_false_iff_ne.mpr hu]
      · rw [Bool.not_eq_true] at hem
        rw [hem]
        simp
  refine ⟨hmain, ?_⟩
  intro v hv
  rw [hmain] at hv
  by_cases hpw : looksLikePasswordField info = true
  · rw [hpw] at hv
    simp at hv
    subst hv
    exact hpR
  · rw [Bool.not_eq_true] at hpw
    rw [hpw] at hv
    by_cases hem : looksLikeEmailField info = true
    · rw [hem] at hv
      simp at hv
      subst hv
      exact huR
    · rw [Bool.not_eq_true] at hem
      rw [hem] at hv
      simp at hv

/-- C2 witness: a password-typed descriptor with the recorded marker gets
the stored secret, never the marker. -/
theorem c2_witness :
    replayInputStep ({ type := some "password" } : ElementInfo)
      (some REDACTED) "alice" "s3cr3t" = InputAction.fillValue "s3cr3t" := by
  have h := c2_redacted_input_replay ({ type := some "password" } : ElementInfo)
    "alice" "s3cr3t" (by decide) (by decide) (by decide) (by decide)
  rw [h.1]
  decide

/-! ## C3 — locator resolution fallback -/

/-- The descriptor of the C3 counterexample: only a structural CSS
selector is present. -/
def infoC3 : ElementInfo := { selectors_css := some "div.x" }

/-- C3 counterexample: with no candidate ever becoming visible,
`_best_locator` does not produce a NotFound outcome — it returns the
first candidate (here the CSS-selector candidate) anyway. -/
theorem c3_counterexample :
    bestLocator infoC3 (fun _ => false) = LocOutcome.fallbackFirst (Cand.cssSel "div.x") ∧
    bestLocator infoC3 (fun _ => false) ≠ LocOutcome.notFound :=
  ⟨by decide, by decide⟩

/-- C3 (amended): `_best_locator` never yields a NotFound outcome; when
no candidate becomes visible within its bounded wait it returns the first
candidate of the priority list (or a locator on the document root when
the descriptor yields no candidates), and a `found` result is always a
visible member of the candidate list.  The scheduler then attempts the
action on whatever was returned inside try/except, logging failures and
continuing, so the replay is not halted — but no skip decision is taken
at resolution time. -/
theorem c3_resolution_amended :
    (∀ (info : ElementInfo) (vis : Cand → Bool),
        bestLocator info vis ≠ LocOutcome.notFound) ∧
    (∀ (info : ElementInfo) (vis : Cand → Bool),
        (∀ c ∈ candidates info, vis c = false) →
        bestLocator info vis =
          (match candidates info with
           | [] => LocOutcome.fallbackHtml
           | c :: _ => LocOutcome.fallbackFirst c)) ∧
    (∀ (info : ElementInfo) (vis : Cand → Bool) (c : Cand),
        bestLocator info vis = LocOutcome.found c →
        c ∈ candidates info ∧ vis c = true) := by
  refine ⟨?_, ?_, ?_⟩
  · intro info vis
    rw [bestLocator]
    cases hf : (candidates info).find? vis with
    | none =>
      cases hc : candidates info with
      | nil => simp
      | cons c rest => simp
    | some c => simp
  · intro info vis h
    have hf : (candidates info).find? vis = none := by
      rw [List.find?_eq_none]
      intro x hx
      rw [h x hx]
      simp
    cases hc : candidates info with
    | nil => rw [bestLocator, hf, hc]
    | cons a rest => rw [bestLocator, hf, hc]
  · intro info vis c h
    rw [bestLocator] at h
    cases hf : (candidates info).find? vis with
    | none =>
      rw [hf] at h
      cases hc : candidates info with
      | nil =>
        rw [hc] at h
        simp at h
      | cons a rest =>
        rw [hc] at h
        simp at h
    | some a =>
      rw [hf] at h
      simp only [LocOutcome.found.injEq] at h
      subst h
      exact ⟨List.mem_of_find?_eq_some hf, List.find?_some hf⟩

/-- C3 witness: the amended fallback equation at the concrete descriptor
with an all-invisible page. -/
theorem c3_witness :
    bestLocator infoC3 (fun _ => false) =
      LocOutcome.fallbackFirst (Cand.cssSel "div.x") := by
  have h := c3_resolution_amended.2.1 infoC3 (fun _ => false) (by decide)
  rw [h]
  decide

/-! ## C1 — capture-side redaction -/

/-- If the redaction condition holds on an input/change event, all three
value copies become the marker. -/
theorem pyRedact_of_cond (ev : CapEvent)
    (he : (ev.etype == "input" || ev.etype == "change") = true)
    (hc : redactCond ev = true) :
    pyRedact ev =
      { ev with
          input_value := some REDACTED
          value := some REDACTED
          el := { ev.el with value_preview := some REDACTED } } := by
  rw [pyRedact, he, hc]
  rfl

/-- If the redaction condition fails, the event is persisted unchanged. -/
theorem pyRedact_of_not_cond (ev : CapEvent) (hc : redactCond ev = false) :
    pyRedact ev = ev := by
  rw [pyRedact]
  by_cases he : (ev.etype == "input" || ev.etype == "change") = true
  · rw [he, hc]
    rfl
  · rw [Bool.not_eq_true] at he
    rw [he]
    rfl

/-- The raw element of the C1 counterexample's change event: a text input
whose `name` is "password" (so the classifier marks it secret) holding
the value "hunter2". -/
def rawLeak : RawEl :=
  { tagName := "INPUT", typeProp := "text", typeAttr := some "text",
    nameAttr := some "password", value := some "hunter2" }

/-- The raw element of the C1 counterexample's input event: a plain text
field (name "q") holding "hello" — its descriptor classifies as none. -/
def rawPlain : RawEl :=
  { tagName := "INPUT", typeProp := "text", typeAttr := some "text",
    nameAttr := some "q", value := some "hello" }

/-- C1 counterexample.  First half: a `change` event on a secret-classified
field (name "password", declared type "text") persists the real value
"hunter2", not the marker — the persistence hook only looks at
`input_value` (absent on change events) and the literal type attribute.
Second half: an `input` event on a field classifying as none (name "q")
does *not* keep its value — it is redacted to the marker, so
none-classified fields are not left untouched. -/
theorem c1_counterexample :
    ((pyRedact (jsChangeEvent rawLeak Option.none Option.none)).value = some "hunter2" ∧
     looksLikePasswordField (pyRedact (jsChangeEvent rawLeak Option.none Option.none)).el = true ∧
     "hunter2" ≠ REDACTED) ∧
    ((pyRedact (jsInputEvent rawPlain Option.none Option.none)).input_value = some REDACTED ∧
     classifyReplay (pyRedact (jsInputEvent rawPlain Option.none Option.none)).el = FieldClass.none ∧
     "hello" ≠ REDACTED) :=
  ⟨⟨by decide, by decide, by decide⟩, ⟨by decide, by decide, by decide⟩⟩

/-- C1 (amended): what the capture pipeline actually guarantees.  For
`input` events on inputs/textareas, *any* non-empty value — whatever its
classification — is persisted as the marker, consistently in both
`input_value` and the descriptor's `value_preview`.  For `change` events
the marker is guaranteed only when the live input's type is "password";
a change event on a field that is secret solely by its attribute text
keeps its real value (the counterexample). -/
theorem c1_redaction_amended :
    (∀ (el : RawEl) (css xp : Option String) (v : String),
        (el.tagName = "INPUT" ∨ el.tagName = "TEXTAREA") → el.value = some v → v ≠ "" →
        (pyRedact (jsInputEvent el css xp)).input_value = some REDACTED ∧
        (pyRedact (jsInputEvent el css xp)).el.value_preview = some REDACTED) ∧
    (∀ (el : RawEl) (css xp : Option String),
        el.tagName = "INPUT" → el.typeProp = "password" →
        (pyRedact (jsChangeEvent el css xp)).value = some REDACTED ∧
        (pyRedact (jsChangeEvent el css xp)).el.value_preview = some REDACTED) := by
  have htr : truncate40 REDACTED = REDACTED := by decide
  constructor
  · intro el css xp v htag hv hne
    by_cases hb : (el.tagName == "INPUT" && el.typeProp == "password") = true
    · -- password input: the page script already sent the marker everywhere
      have hiv : (jsInputEvent el css xp).input_value = some REDACTED := by
        rw [jsInputEvent]
        simp only [hb, if_true, Option.map_some', htr]
      have hvp : (jsInputEvent el css xp).el.value_preview = some REDACTED := by
        rw [jsInputEvent]
        simp only [elInfo, valuePreview, hb, if_true]
      by_cases hc : redactCond (jsInputEvent el css xp) = true
      · rw [pyRedact_of_cond _ (by rfl) hc]
        exact ⟨rfl, rfl⟩
      · rw [Bool.not_eq_true] at hc
        rw [pyRedact_of_not_cond _ hc]
        exact ⟨hiv, hvp⟩
    · -- non-password value: either it already equals the marker, or the
      -- persistence hook redacts it
      rw [Bool.not_eq_true] at hb
      have hiv : (jsInputEvent el css xp).input_value = some (truncate40 v) := by
        rw [jsInputEvent]
        simp only [hb, Bool.false_eq_true, if_false, hv, Option.map_some']
      have hvp : (jsInputEvent el css xp).el.value_preview = some (truncate40 v) := by
        rw [jsInputEvent]
        simp only [elInfo]
        rw [valuePreview, hb]
        simp only [Bool.false_eq_true, if_false]
        have htag2 : (el.tagName == "INPUT" || el.tagName == "TEXTAREA") = true := by
          rcases htag with h | h <;> rw [h] <;> rfl
        rw [htag2]
        simp only [if_true, hv, Option.getD_some]
      by_cases hw : truncate40 v = REDACTED
      · rw [hw] at hiv hvp
        by_cases hc : redactCond (jsInputEvent el css xp) = true
        · rw [pyRedact_of_cond _ (by rfl) hc]
          exact ⟨rfl, rfl⟩
        · rw [Bool.not_eq_true] at hc
          rw [pyRedact_of_not_cond _ hc]
          exact ⟨hiv, hvp⟩
      · have hwne : truncate40 v ≠ "" := truncate40_ne_empty hne
        have hc : redactCond (jsInputEvent el css xp) = true := by
          rw [redactCond, hiv]
          simp only [beq_eq_false_iff_ne.mpr hw, beq_eq_false_iff_ne.mpr hwne]
          simp
        rw [pyRedact_of_cond _ (by rfl) hc]
        exact ⟨rfl, rfl⟩
  · intro el css xp h1 h2
    have hb : (el.tagName == "INPUT" && el.typeProp == "password") = true := by
      rw [h1, h2]
      rfl
    have hvv : (jsChangeEvent el css xp).value = some REDACTED := by
      rw [jsChangeEvent]
      simp only [hb, if_true, Option.map_some', htr]
    have hvp : (jsChangeEvent el css xp).el.value_preview = some REDACTED := by
      rw [jsChangeEvent]
      simp only [elInfo, valuePreview, hb, if_true]
    by_cases hc : redactCond (jsChangeEvent el css xp) = true
    · rw [pyRedact_of_cond _ (by rfl) hc]
      exact ⟨rfl, rfl⟩
    · rw [Bool.not_eq_true] at hc
      rw [pyRedact_of_not_cond _ hc]
      exact ⟨hvv, hvp⟩

/-- A concrete plain text input holding "hi" (for the C1 witness). -/
def rawHi : RawEl := { tagName := "INPUT", typeProp := "text", value := some "hi" }

/-- A concrete password input (attribute written "PASSWORD", DOM property
normalized to "password") holding "pw" (for the C1 witness). -/
def rawPw : RawEl :=
  { tagName := "INPUT", typeProp := "password", typeAttr := some "PASSWORD",
    value := some "pw" }

/-- C1 witness: the amended theorem at a concrete text input holding
"hi" (input event) and a concrete password input (change event). -/
theorem c1_witness :
    (pyRedact (jsInputEvent rawHi Option.none Option.none)).input_value = some REDACTED ∧
    (pyRedact (jsChangeEvent rawPw Option.none Option.none)).value = some REDACTED :=
  ⟨(c1_redaction_amended.1 rawHi Option.none Option.none "hi" (Or.inl rfl) rfl (by decide)).1,
   (c1_redaction_amended.2 rawPw Option.none Option.none rfl rfl).1⟩

/-! ## C5 / C8 — pacing -/

/-- Unfolding equation of `sleepsAux` at a present rel time. -/
theorem sleepsAux_cons_some (r : ℚ) (rest : List (Option ℚ)) (e : ℚ) :
    sleepsAux (some r :: rest) e =
      if r / 1000 - e > 0 then
        min (r / 1000 - e) (MAX_GAP_MS / 1000) ::
          sleepsAux rest (e + min (r / 1000 - e) (MAX_GAP_MS / 1000))
      else 0 :: sleepsAux rest e := rfl

/-- When every inter-event gap is within the cap and the parsed times are
nondecreasing, the pacing loop (with instantaneous actions) tracks the
schedule exactly: each sleep equals the claim's
`min(gap, MAX_GAP) / TIMESCALE` (converted to seconds). -/
theorem sleepsAux_exact (t0 : ℚ) :
    ∀ (rs : List ℚ) (prev : ℚ), t0 ≤ prev →
      List.Chain' (fun a b => a ≤ b ∧ b - a ≤ MAX_GAP_MS) (prev :: rs) →
      sleepsAux (rs.map (fun q => some (max 0 ((q - t0) / TIMESCALE)))) ((prev - t0) / 1000)
        = List.zipWith (fun a b => min (b - a) MAX_GAP_MS / TIMESCALE / 1000) (prev :: rs) rs := by
  intro rs
  induction rs with
  | nil =>
    intro prev _ _
    simp [sleepsAux]
  | cons q rest ih =>
    intro prev ht0 hch
    rw [List.chain'_cons] at hch
    obtain ⟨⟨hle, hgap⟩, hch2⟩ := hch
    have ht0q : t0 ≤ q := le_trans ht0 hle
    have hmax : max 0 ((q - t0) / TIMESCALE) = q - t0 := by
      rw [TIMESCALE, div_one]
      exact max_eq_right (by linarith)
    rw [List.map_cons, hmax, sleepsAux_cons_some, List.zipWith_cons_cons]
    have hd : (q - t0) / 1000 - (prev - t0) / 1000 = (q - prev) / 1000 := by ring
    rw [hd]
    by_cases hpos : (q - prev) / 1000 > 0
    · rw [if_pos hpos]
      have hminle : (q - prev) / 1000 ≤ MAX_GAP_MS / 1000 := by gcongr
      rw [min_eq_left hminle]
      have he : (prev - t0) / 1000 + (q - prev) / 1000 = (q - t0) / 1000 := by ring
      rw [he, ih q ht0q hch2, min_eq_left hgap, TIMESCALE, div_one]
    · rw [if_neg hpos]
      have h1 : (q - prev) / 1000 ≤ 0 := not_lt.mp hpos
      have h2 : (0 : ℚ) ≤ q - prev := by linarith
      have h3 : (0 : ℚ) ≤ (q - prev) / 1000 := by positivity
      have h4 : (q - prev) / 1000 = 0 := le_antisymm h1 h3
      have h5 : q - prev = 0 := by
        rcases div_eq_zero_iff.mp h4 with h | h
        · exact h
        · norm_num at h
      have heq : q = prev := by linarith
      subst heq
      rw [ih q ht0 hch2]
      have hhead : min (q - q) MAX_GAP_MS / TIMESCALE / 1000 = 0 := by
        rw [sub_self, TIMESCALE, div_one, MAX_GAP_MS]
        rw [min_eq_left (by norm_num)]
        norm_num
      rw [hhead]

/-- The timestamps of the C5 counterexample: three events at 0 ms,
10000 ms, and 10100 ms (a 10-second idle gap, then a 100 ms gap). -/
def ts3 : List (Option String) :=
  [some "2025-01-01T00:00:00Z", some "2025-01-01T00:00:10Z",
   some "2025-01-01T00:00:10.1Z"]

/-- C5 counterexample: the code caps the *remaining wait to the absolute
schedule*, not the raw inter-event gap, so after the capped 10-second gap
the deficit carries over — the sleep before the third event is 1.5 s even
though the claim's formula `min(t2 - t1, MAX_GAP) / TIMESCALE` gives
0.1 s. -/
theorem c5_counterexample :
    sleeps ts3 = [0, 3 / 2, 3 / 2] ∧
    min ((10100 : ℚ) - 10000) MAX_GAP_MS / TIMESCALE / 1000 = 1 / 10 ∧
    (3 / 2 : ℚ) ≠ 1 / 10 := by
  refine ⟨?_, by rw [MAX_GAP_MS, TIMESCALE]; norm_num, by norm_num⟩
  have hz : ts3.map eventTimeMs = [some 0, some 10000, some 10100] := by decide
  have h : ts3.map (fun t => (eventTimeMs t).map qOfZ)
      = [some 0, some 10000, some 10100] := by
    have hcomp : ts3.map (fun t => (eventTimeMs t).map qOfZ)
        = (ts3.map eventTimeMs).map (Option.map qOfZ) := by
      rw [List.map_map]
      rfl
    rw [hcomp, hz]
    norm_num [qOfZ]
  rw [sleeps, relTimes, h]
  have hrel : relTimesOfParsed [some (0 : ℚ), some 10000, some 10100]
      = [some 0, some 10000, some 10100] := by
    simp [relTimesOfParsed, TIMESCALE]
  rw [hrel]
  simp only [sleepsAux, MAX_GAP_MS]
  norm_num

/-- C5 (amended): the replay loop is strictly sequential, so action begin
times (running sums of the nonnegative sleeps) are nondecreasing — the
t2 event never begins before the t1 event's action has begun.  The
claim's delay formula `min(t2 - t1, MAX_GAP) / TIMESCALE` holds (with
instantaneous actions, in seconds) whenever the recorded times are
nondecreasing and every inter-event gap is at most MAX_GAP; after a gap
exceeding MAX_GAP the code instead caps the remaining wait to the
absolute schedule, carrying the deficit into later sleeps (the
counterexample). -/
theorem c5_pacing_amended :
    (∀ ts : List (Option String),
        List.Chain' (· ≤ ·) (List.scanl (· + ·) 0 (sleeps ts))) ∧
    (∀ (t0 : ℚ) (rs : List ℚ),
        List.Chain' (fun a b => a ≤ b ∧ b - a ≤ MAX_GAP_MS) (t0 :: rs) →
        sleepsAux (relTimesOfParsed ((t0 :: rs).map some)) 0
          = 0 :: List.zipWith (fun a b => min (b - a) MAX_GAP_MS / TIMESCALE / 1000)
              (t0 :: rs) rs) := by
  constructor
  · intro ts
    exact scanl_add_chain _ 0 (sleepsAux_nonneg _ 0)
  · intro t0 rs hch
    have hrel : relTimesOfParsed ((t0 :: rs).map some)
        = some (max 0 ((t0 - t0) / TIMESCALE))
            :: rs.map (fun q => some (max 0 ((q - t0) / TIMESCALE))) := by
      simp [relTimesOfParsed]
    rw [hrel]
    have h0 : max 0 ((t0 - t0) / TIMESCALE) = 0 := by
      rw [TIMESCALE, div_one, sub_self]
      exact max_eq_right le_rfl
    rw [h0, sleepsAux_cons_some, if_neg (by norm_num)]
    congr 1
    have hx := sleepsAux_exact t0 rs t0 le_rfl hch
    rw [sub_self, zero_div] at hx
    exact hx

/-- C5 witness: the amended theorem at the concrete nondecreasing times
0, 100, 200 ms (all gaps within the cap). -/
theorem c5_witness :
    sleepsAux (relTimesOfParsed (((0 : ℚ) :: [100, 200]).map some)) 0
      = 0 :: List.zipWith (fun a b => min (b - a) MAX_GAP_MS / TIMESCALE / 1000)
          ((0 : ℚ) :: [100, 200]) [100, 200] :=
  c5_pacing_amended.2 0 [100, 200]
    (by norm_num [List.chain'_cons, MAX_GAP_MS])

/-- Entries of the rel_times precomputation are never negative (each
present entry is clamped with `max(0.0, ...)`). -/
theorem relTimesOfParsed_nonneg (ps : List (Option ℚ)) :
    ∀ x ∈ relTimesOfParsed ps, ∀ q, x = some q → 0 ≤ q := by
  intro x hx q hq
  subst hq
  cases ps with
  | nil => simp [relTimesOfParsed] at hx
  | cons p0 rest =>
    rw [relTimesOfParsed] at hx
    obtain ⟨y, _, hmap⟩ := List.mem_map.mp hx
    cases y with
    | none => simp at hmap
    | some z =>
      simp only [Option.map_some', Option.some.injEq] at hmap
      rw [← hmap]
      exact le_max_left 0 _

/-- C8: every precomputed pacing offset is either `none` (missing or
unparsable timestamp) or a nonnegative rational; every sleep the pacing
loop performs is nonnegative, even when a later event's parsed
time-of-day precedes the first event's; and `_event_time_ms` depends only
on the time-of-day portion — two timestamps that differ only in their
(parseable) date yield the same value, and a missing timestamp yields
`none`. -/
theorem c8_rel_times_nonneg :
    (∀ (ts : List (Option String)) (x : Option ℚ), x ∈ relTimes ts →
        ∀ q, x = some q → 0 ≤ q) ∧
    (∀ (rts : List (Option ℚ)) (e : ℚ), ∀ s ∈ sleepsAux rts e, 0 ≤ s) ∧
    eventTimeMs (some "2099-05-06T01:02:03.25Z")
      = eventTimeMs (some "1970-01-01T01:02:03.25Z") ∧
    eventTimeMs Option.none = Option.none := by
  refine ⟨?_, sleepsAux_nonneg, by decide, rfl⟩
  intro ts
  rw [relTimes]
  exact relTimesOfParsed_nonneg _

/-- C8 witness: a session whose second event's time-of-day precedes the
first event's still gets the clamped offset 0 (so 0 ≤ it), and a pacing
step whose target is already past sleeps a nonnegative (zero) amount. -/
theorem c8_witness : (0 : ℚ) ≤ 0 ∧ (0 : ℚ) ≤ 0 := by
  constructor
  · have hz : [some "1970-01-01T00:00:05Z", some "1970-01-01T00:00:01Z"].map eventTimeMs
        = [some 5000, some 1000] := by decide
    have h : [some "1970-01-01T00:00:05Z", some "1970-01-01T00:00:01Z"].map
          (fun t => (eventTimeMs t).map qOfZ)
        = [some 5000, some 1000] := by
      have hcomp : [some "1970-01-01T00:00:05Z", some "1970-01-01T00:00:01Z"].map
            (fun t => (eventTimeMs t).map qOfZ)
          = ([some "1970-01-01T00:00:05Z", some "1970-01-01T00:00:01Z"].map
              eventTimeMs).map (Option.map qOfZ) := by
        rw [List.map_map]
        rfl
      rw [hcomp, hz]
      norm_num [qOfZ]
    have hmem : (some (0 : ℚ))
        ∈ relTimes [some "1970-01-01T00:00:05Z", some "1970-01-01T00:00:01Z"] := by
      rw [relTimes, h]
      have : relTimesOfParsed [some (5000 : ℚ), some 1000] = [some 0, some 0] := by
        simp only [relTimesOfParsed, Option.getD_some, List.map_cons, List.map_nil,
          Option.map_some', TIMESCALE, div_one, sub_self]
        norm_num
      rw [this]
      simp
    exact c8_rel_times_nonneg.1 _ _ hmem 0 rfl
  · have hmem : (0 : ℚ) ∈ sleepsAux [some (-5 : ℚ)] 0 := by
      rw [sleepsAux_cons_some, if_neg (by norm_num)]
      simp [sleepsAux]
    exact c8_rel_times_nonneg.2.1 [some (-5 : ℚ)] 0 0 hmem

/-! ## C6 — selector synthesis depth bounds -/

/-- The cssPath walk pushes at most one more segment past the depth check:
from an accumulator of at most 6 segments it produces at most 7. -/
theorem cssPartsAux_length_le :
    ∀ (ls : List Level) (acc : List String), acc.length ≤ 6 →
      (cssPartsAux ls acc).length ≤ 7 := by
  intro ls
  induction ls with
  | nil =>
    intro acc h
    rw [cssPartsAux]
    omega
  | cons l rest ih =>
    intro acc h
    rw [cssPartsAux]
    split_ifs with h1 h2 h3
    · omega
    · omega
    · simp only [List.length_cons]
      omega
    · apply ih
      simp only [List.length_cons, Nat.not_lt] at h3 ⊢
      omega

/-- The xPath walk likewise: from at most 8 accumulated segments it
produces at most 9. -/
theorem xPartsAux_length_le :
    ∀ (ls : List Level) (acc : List String), acc.length ≤ 8 →
      (xPartsAux ls acc).length ≤ 9 := by
  intro ls
  induction ls with
  | nil =>
    intro acc h
    rw [xPartsAux]
    omega
  | cons l rest ih =>
    intro acc h
    rw [xPartsAux]
    split_ifs with h1
    · simp only [List.length_cons]
      omega
    · apply ih
      simp only [List.length_cons, Nat.not_lt] at h1 ⊢
      omega

/-- A 10-deep ancestor chain of id-less div elements. -/
def levels10 : List Level := List.replicate 10 {}

/-- C6 counterexample: both depth checks break only *after* pushing, so
on a 10-deep chain the positional path has 9 segments — the claim's
"at most 8 segments" is violated (the node itself plus 8 ancestors). -/
theorem c6_counterexample :
    (xPath levels10).map List.length = some 9 ∧ ¬(9 ≤ 8) :=
  ⟨by decide, by decide⟩

/-- C6 (amended): the structural path has at most 7 segments — the node's
own segment plus at most 6 ancestor segments (so the claim's "at most 6
ancestor segments" holds for it); the positional path has at most 9
segments — the node plus at most 8 ancestor segments (not "at most 8
segments"); and a node with a non-empty id yields the single id-based
structural selector. -/
theorem c6_depth_amended :
    (∀ (ls : List Level) (ps : List String), cssPath ls = some ps → ps.length ≤ 7) ∧
    (∀ (ls : List Level) (ps : List String), xPath ls = some ps → ps.length ≤ 9) ∧
    (∀ (l : Level) (rest : List Level), l.idAttr ≠ "" →
        cssPath (l :: rest) = some ["#" ++ cssEscape l.idAttr]) := by
  refine ⟨?_, ?_, ?_⟩
  · intro ls ps h
    cases ls with
    | nil => simp [cssPath] at h
    | cons l rest =>
      rw [cssPath] at h
      by_cases hid : (l.idAttr == "") = true
      · rw [hid] at h
        simp only [Bool.not_true, Bool.false_eq_true, if_false] at h
        by_cases hE : (cssPartsAux (l :: rest) []).isEmpty = true
        · rw [if_pos hE] at h
          exact Option.noConfusion h
        · rw [if_neg hE] at h
          have hb := cssPartsAux_length_le (l :: rest) [] (by norm_num)
          rw [Option.some.injEq] at h
          rw [← h]
          exact hb
      · rw [Bool.not_eq_true] at hid
        rw [hid] at h
        simp only [Bool.not_false, if_true, Option.some.injEq] at h
        rw [← h]
        norm_num
  · intro ls ps h
    cases ls with
    | nil => simp [xPath] at h
    | cons l rest =>
      rw [xPath, Option.some.injEq] at h
      rw [← h]
      exact xPartsAux_length_le (l :: rest) [] (by norm_num)
  · intro l rest hne
    rw [cssPath]
    rw [beq_eq_false_iff_ne.mpr hne]
    rfl

/-- C6 witness: the amended bounds at the concrete 10-deep chain, and the
id short-circuit at a node with id "menu". -/
theorem c6_witness :
    (xPartsAux levels10 []).length ≤ 9 ∧
    cssPath [{ idAttr := "menu" }] = some ["#" ++ cssEscape "menu"] :=
  ⟨c6_depth_amended.2.1 levels10 (xPartsAux levels10 []) rfl,
   c6_depth_amended.2.2 { idAttr := "menu" } [] (by decide)⟩
